import Mathlib

/-!
Shallow embedding of the `eat-ou` repository (src/schedule.rs, src/www.rs,
src/ui.rs).  Machine integers (`u8`, `usize`) are modelled as `Nat` with the
wraparound of release-mode Rust arithmetic made explicit as `% 256` where the
source can overflow or underflow.  Strings handled character-wise are modelled
as `List Char`; display strings use Lean's `String`.
-/

namespace EatOu

/-- `Time` from src/schedule.rs: a low-resolution point in time relative to
midnight, with `u8` fields `hours` and `minutes` (modelled as `Nat`, wrapping
made explicit in the arithmetic operations). -/
structure Time where
  hours : Nat
  minutes : Nat
deriving DecidableEq, Repr

/-- `FromStrError` from src/schedule.rs: errors for string-to-`Time`
conversion. -/
inductive FromStrError where
  | MissingColon
  | InsufficientComponents
  | ExtraComponents
  | Generic
deriving DecidableEq, Repr

/-- `str::split(":")` on a character list: splitting on the colon character,
keeping empty components, as Rust's `split` does (`"" ↦ [""]`, `":" ↦ ["",""]`). -/
def splitColon : List Char → List (List Char)
  | [] => [[]]
  | c :: rest =>
    if c = ':' then [] :: splitColon rest
    else
      match splitColon rest with
      | [] => [[c]]
      | p :: ps => (c :: p) :: ps

/-- Numeric value of a decimal digit character. -/
def digitVal (c : Char) : Nat := c.toNat - 48

/-- Rust's `str::parse::<u8>()`: an optional leading `+`, then one or more
decimal digits whose value fits in a `u8`; anything else is an error
(`None`). -/
def parseU8 (s : List Char) : Option Nat :=
  let t := match s with
    | '+' :: rest => rest
    | _ => s
  if t = [] then none
  else if t.all (fun c => c.isDigit) then
    let v := t.foldl (fun acc c => acc * 10 + digitVal c) 0
    if v ≤ 255 then some v else none
  else none

/-- `impl FromStr for Time` (src/schedule.rs lines 53-71): reject strings with
no colon, split on colons mapping each component through the `u8` parser with
`unwrap_or_default` (non-numeric components become 0), then match on the
component count: fewer than two gives `InsufficientComponents` (the source's
`0..2` exclusive range pattern), exactly two succeeds with
`parts[0]`/`parts[1]` as hours/minutes, more gives `ExtraComponents`. -/
def Time.from_str (s : List Char) : Except FromStrError Time :=
  if ':' ∈ s then
    let parts := (splitColon s).map (fun c => (parseU8 c).getD 0)
    if parts.length < 2 then .error .InsufficientComponents
    else if parts.length = 2 then .ok ⟨parts.getD 0 0, parts.getD 1 0⟩
    else .error .ExtraComponents
  else .error .MissingColon

/-- `impl Add<u8> for Time` (src/schedule.rs lines 81-98): add the minute
offset (u8 addition, wrapping at 256 in release mode), carry into hours only
when the minute sum is strictly greater than 60, then wrap hours above 47 by
subtracting 48. -/
def Time.add (t : Time) (m : Nat) : Time :=
  let minutes0 := (t.minutes + m) % 256
  let minutes1 := if minutes0 > 60 then minutes0 - 60 else minutes0
  let hours1 := if minutes0 > 60 then (t.hours + 1) % 256 else t.hours
  let hours2 := if hours1 > 47 then hours1 - 48 else hours1
  ⟨hours2, minutes1⟩

/-- `impl Sub<Time> for Time` (src/schedule.rs lines 100-107): component-wise
`u8` subtraction (wrapping at 256 in release mode), then
`hours * 60 + minutes` as `usize`. -/
def Time.sub (a b : Time) : Nat :=
  ((a.hours + 256 - b.hours) % 256) * 60 + ((a.minutes + 256 - b.minutes) % 256)

/-- `impl PartialOrd for Time` (src/schedule.rs lines 109-122): equal iff both
fields are equal, greater iff hours is strictly greater or hours are equal and
minutes strictly greater, otherwise less.  The source always returns `Some`,
so the comparison is modelled as a total `Ordering`. -/
def Time.cmp (a b : Time) : Ordering :=
  if a.hours = b.hours ∧ a.minutes = b.minutes then .eq
  else if a.hours > b.hours ∨ (a.hours = b.hours ∧ a.minutes > b.minutes) then .gt
  else .lt

/-- Rust's `a < b` via `PartialOrd`: `partial_cmp` returned `Some(Less)`. -/
def Time.ltb (a b : Time) : Bool :=
  match Time.cmp a b with
  | .lt => true
  | _ => false

/-- Rust's `a > b` via `PartialOrd`: `partial_cmp` returned `Some(Greater)`. -/
def Time.gtb (a b : Time) : Bool :=
  match Time.cmp a b with
  | .gt => true
  | _ => false

/-- Zero-padding to two digits, as Rust's `{:02}` format of a `u8`. -/
def pad2 (n : Nat) : String :=
  if n < 10 then "0" ++ toString n else toString n

/-- `impl Display for Time` (src/schedule.rs lines 124-149): 12-hour clock
with AM/PM; hours above 24 reduced by 24, then above 12 by 12 (setting PM),
12 toggles the meridiem, 0 displays as 12. -/
def Time.format (t : Time) : String :=
  let h1 := if t.hours > 24 then t.hours - 24 else t.hours
  let pm1 := h1 > 12
  let h2 := if h1 > 12 then h1 - 12 else h1
  let pm2 := if h2 = 12 then !pm1 else pm1
  let h3 := if h2 = 0 then 12 else h2
  toString h3 ++ ":" ++ pad2 t.minutes ++ " " ++ (if pm2 then "PM" else "AM")

/-- `Day` from src/schedule.rs: day of the week. -/
inductive Day where
  | Sunday
  | Monday
  | Tuesday
  | Wednesday
  | Thursday
  | Friday
  | Saturday
deriving DecidableEq, Repr

/-- `impl From<i32> for Day` (src/schedule.rs lines 163-175): 0..5 map to
Sunday..Friday and every other integer falls to the wildcard arm, Saturday. -/
def Day.from_i32 (index : Int) : Day :=
  if index = 0 then .Sunday
  else if index = 1 then .Monday
  else if index = 2 then .Tuesday
  else if index = 3 then .Wednesday
  else if index = 4 then .Thursday
  else if index = 5 then .Friday
  else .Saturday

/-- `Hours` from src/schedule.rs: the open/close window for one day.  The
source's second field is named `end`, a Lean keyword, hence the quoted
name. -/
structure Hours where
  start : Time
  «end» : Time
deriving DecidableEq, Repr

/-- `impl Display for Hours` (src/schedule.rs lines 197-206): equal formatted
endpoints display as "Open 24 hours", otherwise "start–end". -/
def Hours.format (h : Hours) : String :=
  let s := h.start.format
  let e := h.«end».format
  if s = e then "Open 24 hours" else s ++ "–" ++ e

/-- `HoursMap` from src/schedule.rs: optional hours for each day of the
week. -/
structure HoursMap where
  sunday : Option Hours
  monday : Option Hours
  tuesday : Option Hours
  wednesday : Option Hours
  thursday : Option Hours
  friday : Option Hours
  saturday : Option Hours
deriving DecidableEq, Repr

/-- `Restaurant` from src/schedule.rs: a named business with its weekly
hours. -/
structure Restaurant where
  name : String
  hours : HoursMap
deriving DecidableEq, Repr

/-- `Restaurant::get_hours` (src/schedule.rs lines 222-232). -/
def Restaurant.get_hours (r : Restaurant) (day : Day) : Option Hours :=
  match day with
  | .Sunday => r.hours.sunday
  | .Monday => r.hours.monday
  | .Tuesday => r.hours.tuesday
  | .Wednesday => r.hours.wednesday
  | .Thursday => r.hours.thursday
  | .Friday => r.hours.friday
  | .Saturday => r.hours.saturday

/-- `Restaurant::is_open` (src/schedule.rs lines 235-237). -/
def Restaurant.is_open (r : Restaurant) (day : Day) : Bool :=
  (r.get_hours day).isSome

/-- `Restaurant::is_viable` (src/schedule.rs lines 241-249): closed days are
not viable; otherwise the restaurant is viable iff `hours.start < time + 10`
and `hours.end > time + 10` under `Time`'s comparison. -/
def Restaurant.is_viable (r : Restaurant) (day : Day) (time : Time) : Bool :=
  match r.get_hours day with
  | none => false
  | some hours => Time.ltb hours.start (time.add 10) && Time.gtb hours.«end» (time.add 10)

/-- `ui::State` from src/ui.rs: the current mode of the user interface. -/
inductive State where
  | Presenting
  | Terminated
  | Tabulating
deriving DecidableEq, Repr

/-- A display row of the tabulated listing: `(name, hours_display, viable_flag)`
as produced by `tuplify` in src/www.rs. -/
abbrev Row := String × String × Bool

/-- The DOM-backed user-interface state of src/ui.rs, reduced to the data the
core reads back: the two `data-` attributes that encode the mode
(`data-terminated` on the next button, `data-tabulating` on the listings
element), the text of the `next_text`, `place` and `times` elements, and the
listing rows written by `tabulate`. -/
structure UI where
  tabulating : Bool
  terminated : Bool
  nextText : String
  place : String
  times : String
  listings : List Row
deriving DecidableEq, Repr

/-- `ui::get_state` (src/ui.rs lines 157-176): `Tabulating` if the
`data-tabulating` attribute is present, else `Terminated` if
`data-terminated` is present, else `Presenting`. -/
def get_state (u : UI) : State :=
  if u.tabulating then .Tabulating
  else if u.terminated then .Terminated
  else .Presenting

/-- `ui::set_state` (src/ui.rs lines 126-152): `Terminated` sets the restart
glyph, the shrug, the terminal message, the `data-terminated` attribute and
clears `data-tabulating`; `Presenting` sets the thumbs-down glyph, clears the
texts and both attributes; `Tabulating` only shows the table and sets
`data-tabulating`. -/
def set_state (s : State) (u : UI) : UI :=
  match s with
  | .Terminated =>
    { u with nextText := "🔄", place := "🤷",
             times := "There aren't any places left to eat. Try again?",
             terminated := true, tabulating := false }
  | .Presenting =>
    { u with nextText := "👎", place := "", times := "",
             terminated := false, tabulating := false }
  | .Tabulating => { u with tabulating := true }

/-- `ui::set_suggestion` (src/ui.rs lines 179-182): writes the suggestion's
name and hours into the `place` and `times` elements. -/
def set_suggestion (name hours : String) (u : UI) : UI :=
  { u with place := name, times := hours }

/-- `ui::stop_tabulation` (src/ui.rs lines 229-234): hides the table and
clears the `data-tabulating` attribute; the other attributes and texts are
untouched. -/
def stop_tabulation (u : UI) : UI :=
  { u with tabulating := false }

/-- `ui::tabulate` (src/ui.rs lines 195-214): replaces the listing contents
with the given rows, then `set_state(Tabulating)`. -/
def tabulate (rows : List Row) (u : UI) : UI :=
  set_state .Tabulating { u with listings := rows }

/-- The whole suggestion-cycle state of src/www.rs: the queue of remaining
shuffled candidates (the `restaurants` vector threaded through the `next`
callbacks) together with the user-interface state. -/
structure App where
  queue : List Restaurant
  ui : UI
deriving DecidableEq, Repr

/-- `Vec::pop`: removes and returns the last element. -/
def vecPop (l : List α) : Option (α × List α) :=
  match l.getLast? with
  | none => none
  | some x => some (x, l.dropLast)

/-- `get_viable` (src/www.rs lines 32-37) with the ambient day and time made
explicit parameters: the catalog filtered by viability. -/
def get_viable (catalog : List Restaurant) (d : Day) (t : Time) : List Restaurant :=
  catalog.filter (fun r => r.is_viable d t)

/-- `suggest` (src/www.rs lines 124-129): shows the restaurant's name, and its
formatted hours when it has hours on the given day, the empty string
otherwise. -/
def suggest (d : Day) (r : Restaurant) (u : UI) : UI :=
  match r.get_hours d with
  | some hours => set_suggestion r.name hours.format u
  | none => set_suggestion r.name "" u

/-- `start` (src/www.rs lines 134-139) with the freshly shuffled viable list
passed as the `fresh` parameter (the source computes it as
`shuffle(get_viable())`, whose randomness is external): set the state to
`Presenting` and advance once — the inner `next` call is inlined, which is
exact because the state is `Presenting` at that point, so `next` either pops
the tail of the fresh queue or, when it is empty, terminates. -/
def start (d : Day) (fresh : List Restaurant) (a : App) : App :=
  let u := set_state .Presenting a.ui
  match vecPop fresh with
  | some (r, rest) => { queue := rest, ui := suggest d r u }
  | none => { queue := fresh, ui := set_state .Terminated u }

/-- `next` (src/www.rs lines 99-116): in `Presenting` or `Terminated` mode,
pop the tail of the queue and suggest it; on an empty queue restart via
`start` when already `Terminated`, otherwise `end()` (set the state to
`Terminated`).  In any other mode (`Tabulating`) the source only re-binds the
event listener, leaving queue and state unchanged. -/
def next (d : Day) (fresh : List Restaurant) (a : App) : App :=
  match get_state a.ui with
  | .Presenting | .Terminated =>
    match vecPop a.queue with
    | some (r, rest) => { queue := rest, ui := suggest d r a.ui }
    | none =>
      if get_state a.ui = .Terminated then start d fresh a
      else { queue := a.queue, ui := set_state .Terminated a.ui }
  | .Tabulating => a

/-- The row construction of `tuplify`'s final `map` (src/www.rs lines 67-75):
each restaurant is mapped to `(name, formatted hours on the day, viability)`,
with the source's `get_hours(today()).unwrap()` modelled as `Option` failure
(`none` models the panic). -/
def rowsOf (d : Day) (t : Time) : List Restaurant → Option (List Row)
  | [] => some []
  | r :: rest =>
    match r.get_hours d with
    | none => none
    | some hours =>
      (rowsOf d t rest).map (fun rows => (r.name, hours.format, r.is_viable d t) :: rows)

/-- The name order used by `tuplify`'s `sort_by_key(|r| r.name.clone())`. -/
def nameLe (a b : Restaurant) : Prop := a.name ≤ b.name

instance : DecidableRel nameLe := fun a b => inferInstanceAs (Decidable (a.name ≤ b.name))

instance : IsTotal Restaurant nameLe := ⟨fun a b => le_total a.name b.name⟩

instance : IsTrans Restaurant nameLe := ⟨fun _ _ _ h h' => le_trans h h'⟩

/-- `tuplify` (src/www.rs lines 56-76) with the ambient day and time explicit:
partition the input into viable and non-viable entries, sort each partition by
name (a stable sort, modelled by insertion sort), concatenate viable entries
first, and map each restaurant to its display row. -/
def tuplify (d : Day) (t : Time) (vec : List Restaurant) : Option (List Row) :=
  let viable := vec.filter (fun r => r.is_viable d t)
  let notViable := vec.filter (fun r => !r.is_viable d t)
  rowsOf d t (List.insertionSort nameLe viable ++ List.insertionSort nameLe notViable)

/-- `list` (src/www.rs lines 118-121), the tabulation path's row computation:
`tuplify` applied to `get_viable()` — the viability-filtered catalog, not the
whole catalog. -/
def listRows (catalog : List Restaurant) (d : Day) (t : Time) : Option (List Row) :=
  tuplify d t (get_viable catalog d t)

/-- `toggle_list_mode` (src/www.rs lines 161-171): from `Terminated` or
`Presenting`, compute the listing and enter `Tabulating` (via
`list`/`tabulate`); from `Tabulating`, `stop_tabulation`.  The `getD []`
models the unreachable `unwrap` panic inside `tuplify` (reachability of the
`some` case is proved separately). -/
def toggle_list_mode (catalog : List Restaurant) (d : Day) (t : Time) (a : App) : App :=
  match get_state a.ui with
  | .Terminated | .Presenting =>
    { a with ui := tabulate ((listRows catalog d t).getD []) a.ui }
  | .Tabulating => { a with ui := stop_tabulation a.ui }

/-! ### Helper lemmas -/

theorem Time.cmp_eq_iff (a b : Time) :
    Time.cmp a b = .eq ↔ (a.hours = b.hours ∧ a.minutes = b.minutes) := by
  unfold Time.cmp
  split_ifs <;> simp_all

theorem Time.cmp_gt_iff (a b : Time) :
    Time.cmp a b = .gt ↔ (b.hours < a.hours ∨ (a.hours = b.hours ∧ b.minutes < a.minutes)) := by
  unfold Time.cmp
  split_ifs <;> simp_all

theorem Time.cmp_lt_iff (a b : Time) :
    Time.cmp a b = .lt ↔ (a.hours < b.hours ∨ (a.hours = b.hours ∧ a.minutes < b.minutes)) := by
  unfold Time.cmp
  split_ifs <;> simp_all <;> omega

theorem Time.ltb_iff (a b : Time) : Time.ltb a b = true ↔ Time.cmp a b = .lt := by
  unfold Time.ltb
  cases h : Time.cmp a b <;> simp

theorem Time.gtb_iff (a b : Time) : Time.gtb a b = true ↔ Time.cmp a b = .gt := by
  unfold Time.gtb
  cases h : Time.cmp a b <;> simp

/-! ### Claim theorems: Time arithmetic, ordering, Day conversion -/

/-- The boundary restaurant of the spec's `is_viable` example: hours 9:00 to
17:00 on Sunday. -/
def nineToFive : Restaurant :=
  { name := "Nine To Five",
    hours := ⟨some ⟨⟨9, 0⟩, ⟨17, 0⟩⟩, none, none, none, none, none, none⟩ }

/-- C1 counterexample: with hours start 9:00 and end 17:00, the claim asserts
`is_viable` at 16:51 is true and at 16:50 is false; the code gives the exact
opposite, because 16:50 + 10 = 16:60 (the carry fires only strictly above 60)
which compares below 17:00, while 16:51 + 10 = 17:01 which compares above
17:00. -/
theorem c1_counterexample :
    nineToFive.get_hours .Sunday = some ⟨⟨9, 0⟩, ⟨17, 0⟩⟩ ∧
    nineToFive.is_viable .Sunday ⟨16, 51⟩ = false ∧
    nineToFive.is_viable .Sunday ⟨16, 50⟩ = true := by
  decide

/-- C1 amended: `is_viable(day, time)` is true iff
`hours.start < time+10 < hours.end` strictly under `Time`'s comparison, with
`time+10` computed by the `add_minutes` operation; for hours 9:00 to 17:00 the
boundary goes the other way round from the claim: `is_viable` at 16:50 is true
(16:50 + 10 = 16:60, not carried, still below 17:00) and at 16:51 is false. -/
theorem c1_amended (r : Restaurant) (d : Day) (t : Time) (h : Hours)
    (hh : r.get_hours d = some h) :
    (r.is_viable d t = true ↔
      (Time.cmp h.start (t.add 10) = .lt ∧ Time.cmp h.«end» (t.add 10) = .gt)) ∧
    nineToFive.is_viable .Sunday ⟨16, 50⟩ = true ∧
    nineToFive.is_viable .Sunday ⟨16, 51⟩ = false := by
  refine ⟨?_, by decide, by decide⟩
  unfold Restaurant.is_viable
  rw [hh]
  simp [Bool.and_eq_true, Time.ltb_iff, Time.gtb_iff]

/-- C1 witness: instantiating the amended claim at the 9:00-17:00 restaurant
and query time 12:00. -/
theorem c1_witness :
    (nineToFive.is_viable .Sunday ⟨12, 0⟩ = true ↔
      (Time.cmp (⟨9, 0⟩ : Time) (Time.add ⟨12, 0⟩ 10) = .lt ∧
       Time.cmp (⟨17, 0⟩ : Time) (Time.add ⟨12, 0⟩ 10) = .gt)) ∧
    nineToFive.is_viable .Sunday ⟨16, 50⟩ = true ∧
    nineToFive.is_viable .Sunday ⟨16, 51⟩ = false :=
  c1_amended nineToFive .Sunday ⟨12, 0⟩ ⟨⟨9, 0⟩, ⟨17, 0⟩⟩ rfl

/-- C4 counterexample: `a = 2:00` and `b = 1:30` satisfy `a > b` under the
comparison order, yet the component-wise `u8` subtraction underflows in the
minutes and the result is 286, not the true minute distance 30. -/
theorem c4_counterexample :
    Time.cmp ⟨2, 0⟩ ⟨1, 30⟩ = .gt ∧
    Time.sub ⟨2, 0⟩ ⟨1, 30⟩ = 286 ∧
    (60 * 2 + 0) - (60 * 1 + 30) = 30 ∧
    (286 : Nat) ≠ 30 := by
  decide

/-- C4 amended: the subtraction returns
`(a.hours - b.hours) * 60 + (a.minutes - b.minutes)`, the true minute
distance, when `b` is component-wise below `a` (both components within the
`u8` range); `a ≥ b` in the comparison order alone is not enough, since the
minutes component can still underflow. -/
theorem c4_amended (a b : Time)
    (hah : a.hours ≤ 255) (ham : a.minutes ≤ 255)
    (hbh : b.hours ≤ a.hours) (hbm : b.minutes ≤ a.minutes) :
    Time.sub a b = (a.hours - b.hours) * 60 + (a.minutes - b.minutes) ∧
    Time.sub a b = (60 * a.hours + a.minutes) - (60 * b.hours + b.minutes) := by
  unfold Time.sub
  constructor <;> omega

/-- C4 witness: instantiating the amended claim at `2:30 - 1:00 = 90`. -/
theorem c4_witness :
    Time.sub ⟨2, 30⟩ ⟨1, 0⟩ = (2 - 1) * 60 + (30 - 0) ∧
    Time.sub ⟨2, 30⟩ ⟨1, 0⟩ = (60 * 2 + 30) - (60 * 1 + 0) :=
  c4_amended ⟨2, 30⟩ ⟨1, 0⟩ (by decide) (by decide) (by decide) (by decide)

/-- C5: for `hours ≤ 47`, `minutes ≤ 59` and an offset `m ≤ 255`, the
addition keeps hours inside `[0, 47]`; the carry fires only when the (u8,
hence wrapped) minute sum strictly exceeds 60, so `1:59 + 1 = 1:60` is not
carried; when the carry pushes hours above 47, exactly 48 is subtracted. -/
theorem c5_add_minutes (t : Time) (m : Nat)
    (hh : t.hours ≤ 47) (hm : t.minutes ≤ 59) (hm255 : m ≤ 255) :
    (Time.add t m).hours ≤ 47 ∧
    ((t.minutes + m) % 256 ≤ 60 → Time.add t m = ⟨t.hours, (t.minutes + m) % 256⟩) ∧
    ((t.minutes + m) % 256 > 60 →
       t.minutes + m > 60 ∧
       (t.hours + 1 ≤ 47 → Time.add t m = ⟨t.hours + 1, (t.minutes + m) % 256 - 60⟩) ∧
       (t.hours + 1 > 47 → Time.add t m = ⟨t.hours + 1 - 48, (t.minutes + m) % 256 - 60⟩)) ∧
    Time.add ⟨1, 59⟩ 1 = ⟨1, 60⟩ := by
  refine ⟨?_, ?_, ?_, by decide⟩ <;>
    simp only [Time.add, Time.mk.injEq] <;>
    split_ifs <;>
    omega

/-- C5 witness: instantiating at the claim's own boundary example
`1:59 + 1`. -/
theorem c5_witness :
    (Time.add ⟨1, 59⟩ 1).hours ≤ 47 ∧ Time.add ⟨1, 59⟩ 1 = ⟨1, 60⟩ :=
  ⟨(c5_add_minutes ⟨1, 59⟩ 1 (by decide) (by decide) (by decide)).1,
   (c5_add_minutes ⟨1, 59⟩ 1 (by decide) (by decide) (by decide)).2.2.2⟩

/-- C8: the comparison is the lexicographic strict total order on
`(hours, minutes)`: `Equal` iff both fields agree, `Greater` iff hours is
strictly greater or hours agree and minutes is strictly greater, `Less`
otherwise; it is reflexive into `Equal`, asymmetric and transitive; and no
past-midnight normalization happens, so 25:00 and 1:00 do not compare
`Equal`. -/
theorem c8_ordering_lex (a b c : Time) :
    (Time.cmp a b = .eq ↔ (a.hours = b.hours ∧ a.minutes = b.minutes)) ∧
    (Time.cmp a b = .gt ↔ (b.hours < a.hours ∨ (a.hours = b.hours ∧ b.minutes < a.minutes))) ∧
    (Time.cmp a b = .lt ↔ (a.hours < b.hours ∨ (a.hours = b.hours ∧ a.minutes < b.minutes))) ∧
    Time.cmp a a = .eq ∧
    (Time.cmp a b = .lt ↔ Time.cmp b a = .gt) ∧
    (Time.cmp a b = .lt → Time.cmp b c = .lt → Time.cmp a c = .lt) ∧
    Time.cmp ⟨25, 0⟩ ⟨1, 0⟩ ≠ .eq := by
  refine ⟨Time.cmp_eq_iff a b, Time.cmp_gt_iff a b, Time.cmp_lt_iff a b, ?_, ?_, ?_, by decide⟩
  · exact (Time.cmp_eq_iff a a).mpr ⟨rfl, rfl⟩
  · rw [Time.cmp_lt_iff, Time.cmp_gt_iff]
    omega
  · rw [Time.cmp_lt_iff, Time.cmp_lt_iff, Time.cmp_lt_iff]
    omega

/-- C8 witness: transitivity of the comparison instantiated at
1:02 < 1:03 < 2:00. -/
theorem c8_witness :
    Time.cmp ⟨1, 2⟩ ⟨1, 3⟩ = .lt ∧ Time.cmp ⟨1, 3⟩ ⟨2, 0⟩ = .lt ∧
    Time.cmp ⟨1, 2⟩ ⟨2, 0⟩ = .lt :=
  ⟨by decide, by decide,
   (c8_ordering_lex ⟨1, 2⟩ ⟨1, 3⟩ ⟨2, 0⟩).2.2.2.2.2.1 (by decide) (by decide)⟩

/-- C10: the integer-to-`Day` conversion maps 0..6 to Sunday..Saturday and
every other integer, negative integers included, to Saturday. -/
theorem c10_day_from_i32 :
    Day.from_i32 0 = .Sunday ∧ Day.from_i32 1 = .Monday ∧ Day.from_i32 2 = .Tuesday ∧
    Day.from_i32 3 = .Wednesday ∧ Day.from_i32 4 = .Thursday ∧ Day.from_i32 5 = .Friday ∧
    Day.from_i32 6 = .Saturday ∧
    ∀ n : Int, (n < 0 ∨ 6 < n) → Day.from_i32 n = .Saturday := by
  refine ⟨by decide, by decide, by decide, by decide, by decide, by decide, by decide, ?_⟩
  intro n hn
  unfold Day.from_i32
  split_ifs <;> first | rfl | omega

/-- C10 witness: a negative index maps to Saturday. -/
theorem c10_witness : Day.from_i32 (-3) = .Saturday :=
  c10_day_from_i32.2.2.2.2.2.2.2 (-3) (Or.inl (by decide))

/-! ### Claim theorems: Time parsing -/

theorem splitColon_ne_nil (s : List Char) : splitColon s ≠ [] := by
  cases s with
  | nil => simp [splitColon]
  | cons c rest =>
    unfold splitColon
    split_ifs
    · simp
    · split <;> simp

theorem two_le_splitColon_length (s : List Char) (h : ':' ∈ s) :
    2 ≤ (splitColon s).length := by
  induction s with
  | nil => simp at h
  | cons c rest ih =>
    unfold splitColon
    by_cases hc : c = ':'
    · simp only [if_pos hc, List.length_cons]
      have h1 : 0 < (splitColon rest).length :=
        List.length_pos.mpr (splitColon_ne_nil rest)
      omega
    · simp only [if_neg hc]
      have hrest : ':' ∈ rest := by
        rcases List.mem_cons.mp h with h1 | h1
        · exact absurd h1.symm hc
        · exact h1
      have h2 := ih hrest
      split
      · next heq => rw [heq] at h2; simp at h2
      · next p ps heq =>
          rw [heq] at h2
          simp only [List.length_cons] at h2 ⊢
          omega

/-- C6: parsing fails with `MissingColon` exactly on strings without a colon;
on strings with a colon it fails with a component-count error exactly when the
split does not have two components (`ExtraComponents` being the only
reachable one of the pair), succeeds otherwise, and each of the two
components, when non-numeric, parses leniently to 0 instead of failing. -/
theorem c6_parse_errors (s : List Char) :
    (Time.from_str s = .error .MissingColon ↔ ':' ∉ s) ∧
    (':' ∈ s →
      ((Time.from_str s = .error .InsufficientComponents ∨
        Time.from_str s = .error .ExtraComponents) ↔ (splitColon s).length ≠ 2)) ∧
    (':' ∈ s → (splitColon s).length = 2 → ∃ t, Time.from_str s = .ok t) ∧
    (∀ p q, ':' ∈ s → splitColon s = [p, q] →
       Time.from_str s = .ok ⟨(parseU8 p).getD 0, (parseU8 q).getD 0⟩) ∧
    Time.from_str ('a' :: 'b' :: ':' :: 'c' :: 'd' :: []) = .ok ⟨0, 0⟩ := by
  refine ⟨?_, ?_, ?_, ?_, rfl⟩
  · simp only [Time.from_str]
    split_ifs with hc hlt heq <;> simp [hc]
  · intro hc
    have h2 := two_le_splitColon_length s hc
    simp only [Time.from_str, List.length_map]
    rw [if_pos hc]
    split_ifs with hlt heq
    · exact absurd h2 (by omega)
    · simp [heq]
    · simp [heq]
  · intro hc hlen
    simp only [Time.from_str, List.length_map]
    rw [if_pos hc, if_neg (by omega), if_pos hlen]
    exact ⟨_, rfl⟩
  · intro p q hc heq
    simp only [Time.from_str]
    rw [if_pos hc, heq]
    rfl

/-- C6 witness: instantiating the parse-error characterization at the
two-component string "ab:cd", whose non-numeric components parse to 0. -/
theorem c6_witness :
    (¬(Time.from_str ('a' :: 'b' :: ':' :: 'c' :: 'd' :: []) =
        .error .InsufficientComponents ∨
       Time.from_str ('a' :: 'b' :: ':' :: 'c' :: 'd' :: []) = .error .ExtraComponents) ↔
      ¬(splitColon ('a' :: 'b' :: ':' :: 'c' :: 'd' :: [])).length ≠ 2) ∧
    Time.from_str ('a' :: 'b' :: ':' :: 'c' :: 'd' :: []) =
      .ok ⟨(parseU8 ('a' :: 'b' :: [])).getD 0, (parseU8 ('c' :: 'd' :: [])).getD 0⟩ :=
  ⟨(not_iff_not).mpr ((c6_parse_errors ('a' :: 'b' :: ':' :: 'c' :: 'd' :: [])).2.1
      (by decide)),
   (c6_parse_errors ('a' :: 'b' :: ':' :: 'c' :: 'd' :: [])).2.2.2.1
      ('a' :: 'b' :: []) ('c' :: 'd' :: []) (by decide) (by decide)⟩

/-- C9: parsing never returns `InsufficientComponents` and never returns
`Generic`: a string passing the colon check splits into at least two
components, so only `MissingColon`, `ExtraComponents` or success are
reachable. -/
theorem c9_unreachable_errors (s : List Char) :
    Time.from_str s ≠ .error .InsufficientComponents ∧
    Time.from_str s ≠ .error .Generic := by
  simp only [Time.from_str, List.length_map]
  split_ifs with hc hlt heq
  · exact absurd (two_le_splitColon_length s hc) (by omega)
  · simp
  · simp
  · simp

/-! ### Claim theorems: the tabulation path -/

theorem is_viable_get_hours {r : Restaurant} {d : Day} {t : Time}
    (h : r.is_viable d t = true) : ∃ hrs, r.get_hours d = some hrs := by
  unfold Restaurant.is_viable at h
  cases hh : r.get_hours d with
  | none => rw [hh] at h; simp at h
  | some hrs => exact ⟨hrs, rfl⟩

theorem rowsOf_all_some (d : Day) (t : Time) :
    ∀ l : List Restaurant, (∀ r ∈ l, r.is_viable d t = true) →
      ∃ rows, rowsOf d t l = some rows ∧
        (rows.map fun p => p.1) = (l.map fun r => r.name) ∧
        rows.all (fun p => p.2.2) = true
  | [], _ => ⟨[], rfl, rfl, rfl⟩
  | r :: rest, h => by
    obtain ⟨hrs, hh⟩ := is_viable_get_hours (h r (List.mem_cons_self r rest))
    obtain ⟨rows, h1, h2, h3⟩ :=
      rowsOf_all_some d t rest (fun x hx => h x (List.mem_cons_of_mem r hx))
    refine ⟨(r.name, hrs.format, r.is_viable d t) :: rows, ?_, ?_, ?_⟩
    · simp [rowsOf, hh, h1]
    · simp [h2]
    · simp [h3, h r (List.mem_cons_self r rest)]

/-- A restaurant closed on Sundays, for the tabulation counterexample. -/
def closedSundays : Restaurant :=
  { name := "Closed Sundays",
    hours := ⟨none, some ⟨⟨9, 0⟩, ⟨17, 0⟩⟩, none, none, none, none, none⟩ }

/-- A two-entry catalog with one Sunday-viable and one Sunday-closed
restaurant. -/
def exampleCatalog : List Restaurant := [nineToFive, closedSundays]

/-- C2 counterexample: on a two-entry catalog with one non-viable entry, the
tabulation path produces a single row, not one row per catalog entry — the
listing is built from `get_viable()`, so non-viable entries are dropped
entirely. -/
theorem c2_counterexample :
    exampleCatalog.length = 2 ∧
    (listRows exampleCatalog .Sunday ⟨12, 0⟩).map (fun rows => rows.length) = some 1 ∧
    (listRows exampleCatalog .Sunday ⟨12, 0⟩).map (fun rows => rows.map fun p => p.1) =
      some ["Nine To Five"] := by
  decide

/-- C2 amended: the tabulation path produces one row per *viable* catalog
entry only (the catalog is filtered by `get_viable` before `tuplify`, so
non-viable entries get no row), the rows are sorted by name ascending, and
every row carries a true viability flag.  `tuplify` itself orders viable rows
before non-viable rows (each group name-sorted), but on the viability-filtered
input the non-viable group is empty. -/
theorem c2_amended (catalog : List Restaurant) (d : Day) (t : Time) :
    ∃ rows, listRows catalog d t = some rows ∧
      (rows.map fun p => p.1).Perm
        ((catalog.filter fun r => r.is_viable d t).map fun r => r.name) ∧
      List.Sorted (fun x y : String => x ≤ y) (rows.map fun p => p.1) ∧
      rows.all (fun p => p.2.2) = true := by
  have hmemV : ∀ r ∈ catalog.filter (fun r => r.is_viable d t), r.is_viable d t = true :=
    fun r hr => (List.mem_filter.mp hr).2
  have hfilt1 : (catalog.filter (fun r => r.is_viable d t)).filter
      (fun r => r.is_viable d t) = catalog.filter (fun r => r.is_viable d t) :=
    List.filter_eq_self.mpr hmemV
  have hfilt2 : (catalog.filter (fun r => r.is_viable d t)).filter
      (fun r => !r.is_viable d t) = [] :=
    List.filter_eq_nil_iff.mpr (fun a ha => by simp [hmemV a ha])
  have hlist : listRows catalog d t =
      rowsOf d t (List.insertionSort nameLe (catalog.filter (fun r => r.is_viable d t))) := by
    simp [listRows, tuplify, get_viable, hfilt1, hfilt2]
  have hsortmem : ∀ r ∈ List.insertionSort nameLe (catalog.filter (fun r => r.is_viable d t)),
      r.is_viable d t = true := by
    intro r hr
    exact hmemV r ((List.perm_insertionSort nameLe _).mem_iff.mp hr)
  obtain ⟨rows, h1, h2, h3⟩ := rowsOf_all_some d t _ hsortmem
  refine ⟨rows, hlist.trans h1, ?_, ?_, h3⟩
  · rw [h2]
    exact (List.perm_insertionSort nameLe _).map _
  · rw [h2]
    exact List.pairwise_map.mpr (List.sorted_insertionSort nameLe _)

/-! ### Claim theorems: the suggestion cycle -/

theorem vecPop_concat (l : List α) (x : α) : vecPop (l ++ [x]) = some (x, l) := by
  unfold vecPop
  rw [List.getLast?_concat, List.dropLast_concat]

theorem get_state_suggest (d : Day) (r : Restaurant) (u : UI) :
    get_state (suggest d r u) = get_state u := by
  unfold suggest
  cases r.get_hours d <;> rfl

theorem get_state_set_presenting (u : UI) :
    get_state (set_state .Presenting u) = .Presenting := rfl

theorem get_state_set_terminated (u : UI) :
    get_state (set_state .Terminated u) = .Terminated := rfl

theorem next_pop (d : Day) (fresh : List Restaurant) (a : App)
    (q : List Restaurant) (r : Restaurant)
    (hs : get_state a.ui ≠ .Tabulating) (hq : a.queue = q ++ [r]) :
    next d fresh a = { queue := q, ui := suggest d r a.ui } := by
  unfold next
  rw [hq]
  cases hst : get_state a.ui with
  | Presenting => simp [vecPop_concat]
  | Terminated => simp [vecPop_concat]
  | Tabulating => exact absurd hst hs

theorem next_empty_presenting (d : Day) (fresh : List Restaurant) (a : App)
    (hq : a.queue = []) (hs : get_state a.ui = .Presenting) :
    next d fresh a = { queue := a.queue, ui := set_state .Terminated a.ui } := by
  simp [next, hq, hs, vecPop]

theorem next_empty_terminated (d : Day) (fresh : List Restaurant) (a : App)
    (hq : a.queue = []) (hs : get_state a.ui = .Terminated) :
    next d fresh a = start d fresh a := by
  simp [next, hq, hs, vecPop]

theorem next_tabulating (d : Day) (fresh : List Restaurant) (a : App)
    (hs : get_state a.ui = .Tabulating) :
    next d fresh a = a := by
  simp [next, hs]

theorem start_concat (d : Day) (a : App) (q : List Restaurant) (r : Restaurant) :
    start d (q ++ [r]) a = { queue := q, ui := suggest d r (set_state .Presenting a.ui) } := by
  simp [start, vecPop_concat]

theorem start_nil (d : Day) (a : App) :
    start d [] a = { queue := [], ui := set_state .Terminated (set_state .Presenting a.ui) } := by
  simp [start, vecPop]

/-- The user interface freshly in `Presenting` mode. -/
def presentingUI : UI :=
  { tabulating := false, terminated := false, nextText := "👎", place := "", times := "",
    listings := [] }

/-- Scenario restaurant A, open all Sunday. -/
def viableA : Restaurant :=
  { name := "A", hours := ⟨some ⟨⟨0, 0⟩, ⟨23, 59⟩⟩, none, none, none, none, none, none⟩ }

/-- Scenario restaurant C, open all Sunday. -/
def viableC : Restaurant :=
  { name := "C", hours := ⟨some ⟨⟨0, 0⟩, ⟨23, 59⟩⟩, none, none, none, none, none, none⟩ }

/-- The scenario start state: a shuffled two-element queue, `Presenting`. -/
def scen0 : App := ⟨[viableA, viableC], presentingUI⟩

/-- Scenario state after one advance. -/
def scen1 : App := next .Sunday [] scen0

/-- Scenario state after two advances. -/
def scen2 : App := next .Sunday [] scen1

/-- Scenario state after three advances. -/
def scen3 : App := next .Sunday [] scen2

/-- A suggestion-cycle state in `Tabulating` mode with an empty queue. -/
def tabulatingApp : App :=
  ⟨[], { tabulating := true, terminated := false, nextText := "", place := "", times := "",
         listings := [] }⟩

/-- C3 counterexample: in `Tabulating` mode with an empty queue — a state
whose mode is not `Terminated` — the claim says the advance transition makes
the mode `Terminated`; the code's advance (`next`) only re-binds the event
listener in that mode, leaving the state unchanged and the mode
`Tabulating`. -/
theorem c3_counterexample :
    tabulatingApp.queue = [] ∧
    get_state tabulatingApp.ui ≠ .Terminated ∧
    next .Sunday [] tabulatingApp = tabulatingApp ∧
    get_state (next .Sunday [] tabulatingApp).ui = .Tabulating := by
  decide

/-- C3 amended: in `Presenting` or `Terminated` mode, an advance on a
non-empty queue pops the tail item, emits it as the suggestion and leaves the
mode unchanged (so `Presenting` stays `Presenting`); with an empty queue, the
advance restarts the cycle when the mode is `Terminated` (fresh queue, mode
`Presenting`, one immediate advance — `start`) and becomes `Terminated` when
the mode is `Presenting`; in `Tabulating` mode an advance leaves the whole
state unchanged.  The restart pops the tail of the fresh queue into a
suggestion in `Presenting` mode, or terminates immediately when the fresh
queue is empty.  The two-element scenario holds: candidates [A, C] from the
three-entry catalog, then three advances yield C, A, `Terminated`, and a
fourth advance restarts. -/
theorem c3_amended (d : Day) (fresh : List Restaurant) (a : App)
    (q : List Restaurant) (r : Restaurant) :
    (get_state a.ui ≠ .Tabulating → a.queue = q ++ [r] →
       next d fresh a = { queue := q, ui := suggest d r a.ui } ∧
       get_state (suggest d r a.ui) = get_state a.ui) ∧
    (a.queue = [] → get_state a.ui = .Terminated → next d fresh a = start d fresh a) ∧
    (a.queue = [] → get_state a.ui = .Presenting →
       (next d fresh a).queue = [] ∧ get_state (next d fresh a).ui = .Terminated) ∧
    (get_state a.ui = .Tabulating → next d fresh a = a) ∧
    (fresh = q ++ [r] →
       start d fresh a = { queue := q, ui := suggest d r (set_state .Presenting a.ui) } ∧
       get_state (suggest d r (set_state .Presenting a.ui)) = .Presenting) ∧
    (fresh = [] → get_state (start d fresh a).ui = .Terminated) ∧
    get_viable [viableA, closedSundays, viableC] .Sunday ⟨12, 0⟩ = [viableA, viableC] ∧
    scen1.ui.place = "C" ∧ get_state scen1.ui = .Presenting ∧ scen1.queue = [viableA] ∧
    scen2.ui.place = "A" ∧ get_state scen2.ui = .Presenting ∧ scen2.queue = [] ∧
    get_state scen3.ui = .Terminated ∧ scen3.queue = [] ∧
    ∀ f, next .Sunday f scen3 = start .Sunday f scen3 := by
  refine ⟨fun hs hq => ⟨next_pop d fresh a q r hs hq, get_state_suggest d r a.ui⟩,
          next_empty_terminated d fresh a,
          fun hq hs => ?_,
          next_tabulating d fresh a,
          fun hf => ?_,
          fun hf => ?_,
          by decide, by decide, by decide, by decide, by decide, by decide, by decide,
          by decide, by decide,
          fun f => next_empty_terminated .Sunday f scen3 rfl (by decide)⟩
  · rw [next_empty_presenting d fresh a hq hs]
    exact ⟨hq, get_state_set_terminated a.ui⟩
  · subst hf
    exact ⟨start_concat d a q r, by rw [get_state_suggest]; exact get_state_set_presenting _⟩
  · subst hf
    rw [start_nil]
    exact get_state_set_terminated _

/-- C3 witness: the pop case of the amended claim instantiated at a
one-element queue in `Presenting` mode. -/
theorem c3_witness :
    next .Sunday [] ⟨[viableA], presentingUI⟩ =
      { queue := [], ui := suggest .Sunday viableA presentingUI } ∧
    get_state (suggest .Sunday viableA presentingUI) = get_state presentingUI :=
  (c3_amended .Sunday [] ⟨[viableA], presentingUI⟩ [] viableA).1 (by decide) rfl

/-- C7: a single tabulation toggle from `Presenting` or `Terminated` enters
`Tabulating` without touching the queue or the current suggestion; a second
toggle returns to the original mode, again with queue and current suggestion
unchanged. -/
theorem c7_toggle_roundtrip (catalog : List Restaurant) (d : Day) (t : Time) (a : App)
    (h : get_state a.ui ≠ .Tabulating) :
    get_state (toggle_list_mode catalog d t a).ui = .Tabulating ∧
    (toggle_list_mode catalog d t a).queue = a.queue ∧
    (toggle_list_mode catalog d t a).ui.place = a.ui.place ∧
    (toggle_list_mode catalog d t a).ui.times = a.ui.times ∧
    get_state (toggle_list_mode catalog d t (toggle_list_mode catalog d t a)).ui =
      get_state a.ui ∧
    (toggle_list_mode catalog d t (toggle_list_mode catalog d t a)).queue = a.queue ∧
    (toggle_list_mode catalog d t (toggle_list_mode catalog d t a)).ui.place = a.ui.place ∧
    (toggle_list_mode catalog d t (toggle_list_mode catalog d t a)).ui.times = a.ui.times := by
  cases htab : a.ui.tabulating with
  | true => exact absurd (by simp [get_state, htab]) h
  | false =>
    cases hterm : a.ui.terminated <;>
      simp [toggle_list_mode, get_state, htab, hterm, tabulate, set_state, stop_tabulation]

/-- C7 witness: the round trip instantiated at an empty-queue `Presenting`
state and an empty catalog. -/
theorem c7_witness :
    get_state (toggle_list_mode [] .Sunday ⟨12, 0⟩ ⟨[], presentingUI⟩).ui = .Tabulating ∧
    (toggle_list_mode [] .Sunday ⟨12, 0⟩ ⟨[], presentingUI⟩).queue = [] ∧
    (toggle_list_mode [] .Sunday ⟨12, 0⟩ ⟨[], presentingUI⟩).ui.place = "" ∧
    (toggle_list_mode [] .Sunday ⟨12, 0⟩ ⟨[], presentingUI⟩).ui.times = "" ∧
    get_state (toggle_list_mode [] .Sunday ⟨12, 0⟩
      (toggle_list_mode [] .Sunday ⟨12, 0⟩ ⟨[], presentingUI⟩)).ui =
      get_state presentingUI ∧
    (toggle_list_mode [] .Sunday ⟨12, 0⟩
      (toggle_list_mode [] .Sunday ⟨12, 0⟩ ⟨[], presentingUI⟩)).queue = [] ∧
    (toggle_list_mode [] .Sunday ⟨12, 0⟩
      (toggle_list_mode [] .Sunday ⟨12, 0⟩ ⟨[], presentingUI⟩)).ui.place = "" ∧
    (toggle_list_mode [] .Sunday ⟨12, 0⟩
      (toggle_list_mode [] .Sunday ⟨12, 0⟩ ⟨[], presentingUI⟩)).ui.times = "" :=
  c7_toggle_roundtrip [] .Sunday ⟨12, 0⟩ ⟨[], presentingUI⟩ (by decide)

end EatOu
